import Mathlib

/-!
A shallow embedding of the slime-mold simulation in `slime.py` and proofs of
the specification's claims about it.

Modelling conventions:
* Python floats are modelled as rationals (`ℚ`); the decimal literals of the
  source (`0.01`, `0.1`, …) become the corresponding rationals.
* `np.cos` / `np.sin` are external numeric primitives; the embedding takes
  them as explicit function parameters `cosf sinf : ℚ → ℚ`, since no claim
  depends on their values.
* `scipy.ndimage.gaussian_filter` (the `diffuse` helper) is likewise an
  external primitive, taken as a map-transformer parameter `diffuseF`.
* `np.random.random()` is a deterministic stream once the global generator
  is seeded; it is modelled as an explicit state `RNG` holding the stream
  (a function `ℕ → ℚ`) and the index of the next draw.
* The `DrawMap` array of shape `width × height` is modelled as a total
  function `ℤ → ℤ → ℚ`; every operation of the source touches only indices
  inside `[0,width) × [0,height)`, which the embedding mirrors exactly.
-/

namespace Slime

/-- The exact value of the float64 constant `PI` (`np.pi`) used by the
source when re-randomizing an agent heading. -/
def PI : ℚ := 884279719003555 / 281474976710656

/-- Python's `int()` applied to a float: truncation toward zero. -/
def pyInt (q : ℚ) : ℤ := if 0 ≤ q then ⌊q⌋ else ⌈q⌉

/-- `np.clip(x, lo, hi) = min(hi, max(lo, x))`. -/
def npClip (q lo hi : ℚ) : ℚ := min hi (max lo q)

/-- The simulation parameters set at the top of `construct`
(`moveSpeed`, `deltaTime`, …), gathered into a record so the embedded
functions can take them explicitly instead of capturing them. -/
structure Config where
  moveSpeed : ℚ
  deltaTime : ℚ
  width : ℤ
  height : ℤ
  nrAgents : ℤ
  evaporateSpeed : ℚ
  sensorOffsetDst : ℚ
  sensorSize : ℕ
  sensorAngleSpacing : ℚ
  turnSpeed : ℚ

/-- An agent: position (two coordinates) and movement angle, as in the
`Agent` class of the source. -/
structure Agent where
  posX : ℚ
  posY : ℚ
  angle : ℚ
deriving DecidableEq

/-- The `DrawMap` grid of trail intensities. -/
def TrailMap : Type := ℤ → ℤ → ℚ

/-- The state of the (seeded) global numpy random generator: the stream of
uniform draws it will produce and the index of the next one. -/
structure RNG where
  stream : ℕ → ℚ
  idx : ℕ

/-- `np.random.random()`: returns the next draw of the stream and advances
the generator by exactly one position. -/
def randRandom (r : RNG) : ℚ × RNG :=
  (r.stream r.idx, ⟨r.stream, r.idx + 1⟩)

/-- `DrawMap[int(newPos[0]), int(newPos[1])] = 1` (line 56 of the source):
the cell indexed by truncation of the position is overwritten to 1. -/
def deposit (m : TrailMap) (x y : ℚ) : TrailMap :=
  fun i j => if i = pyInt x ∧ j = pyInt y then 1 else m i j

/-- `evaporate_map` (lines 59–67): every in-range cell is replaced by
`max 0 (value - evaporateSpeed * deltaTime)`; nothing else is touched. -/
def evaporate_map (cfg : Config) (m : TrailMap) : TrailMap :=
  fun i j =>
    if 0 ≤ i ∧ i < cfg.width ∧ 0 ≤ j ∧ j < cfg.height then
      max 0 (m i j - cfg.evaporateSpeed * cfg.deltaTime)
    else m i j

/-- The list of window offsets `range(-sensorSize, sensorSize + 1)` used by
the double loop in `sense`. -/
def windowOffsets (s : ℕ) : List ℤ :=
  (List.range (2 * s + 1)).map (fun k : ℕ => (k : ℤ) - (s : ℤ))

/-- `sense` (lines 81–107): the sensor center is the agent position offset
by `sensorOffsetDst` along `angle + sensorAngleOffset`, clipped into
`[0, width-1] × [0, height-1]` and truncated to integers; the returned
value is the accumulated sum of the map over the square window of half-size
`sensorSize` around it, skipping window cells that fall out of bounds. -/
def sense (cfg : Config) (cosf sinf : ℚ → ℚ) (a : Agent) (m : TrailMap)
    (sensorAngleOffset : ℚ) : ℚ :=
  let sensorAngle := a.angle + sensorAngleOffset
  let cx := a.posX + cosf sensorAngle * cfg.sensorOffsetDst
  let cy := a.posY + sinf sensorAngle * cfg.sensorOffsetDst
  let ix := pyInt (npClip cx 0 ((cfg.width : ℚ) - 1))
  let iy := pyInt (npClip cy 0 ((cfg.height : ℚ) - 1))
  (windowOffsets cfg.sensorSize).foldl
    (fun tot offX =>
      (windowOffsets cfg.sensorSize).foldl
        (fun tot2 offY =>
          let px := ix + offX
          let py := iy + offY
          if 0 ≤ px ∧ px < cfg.width ∧ 0 ≤ py ∧ py < cfg.height then
            tot2 + m px py
          else tot2)
        tot)
    0

/-- `steer` (lines 109–129): three sensed weights, one unconditional random
draw, then the four-way comparison updating the angle (with an implicit
fifth no-op case). Returns the updated agent and generator state. -/
def steer (cfg : Config) (cosf sinf : ℚ → ℚ) (a : Agent) (m : TrailMap)
    (r : RNG) : Agent × RNG :=
  let weightForward := sense cfg cosf sinf a m 0
  let weightLeft := sense cfg cosf sinf a m cfg.sensorAngleSpacing
  let weightRight := sense cfg cosf sinf a m (-cfg.sensorAngleSpacing)
  let d := randRandom r
  let randomSteerStrength := d.1
  let r2 := d.2
  if weightForward > weightLeft ∧ weightForward > weightRight then
    ({ a with angle := a.angle + 0 }, r2)
  else if weightForward < weightLeft ∧ weightForward < weightRight then
    ({ a with angle :=
        a.angle + (randomSteerStrength - 1/2) * 2 * cfg.turnSpeed * cfg.deltaTime }, r2)
  else if weightRight > weightLeft then
    ({ a with angle := a.angle - randomSteerStrength * cfg.turnSpeed * cfg.deltaTime }, r2)
  else if weightLeft > weightRight then
    ({ a with angle := a.angle + randomSteerStrength * cfg.turnSpeed * cfg.deltaTime }, r2)
  else (a, r2)

/-- `update_agent` (lines 40–57): tentative move along the heading; if the
tentative position leaves `[0,width) × [0,height)` on either axis, both
coordinates are constrained by `min (width - 0.01) (max 0 ·)` (resp. height)
and the angle is re-randomized; the finalized position is deposited into the
map, and `steer` runs on the resulting state. -/
def update_agent (cfg : Config) (cosf sinf : ℚ → ℚ) (a : Agent)
    (m : TrailMap) (r : RNG) : Agent × TrailMap × RNG :=
  let dirX := cosf a.angle
  let dirY := sinf a.angle
  let nx := a.posX + dirX * cfg.moveSpeed * cfg.deltaTime
  let ny := a.posY + dirY * cfg.moveSpeed * cfg.deltaTime
  if nx < 0 ∨ nx ≥ (cfg.width : ℚ) ∨ ny < 0 ∨ ny ≥ (cfg.height : ℚ) then
    let cx := min ((cfg.width : ℚ) - 1/100) (max 0 nx)
    let cy := min ((cfg.height : ℚ) - 1/100) (max 0 ny)
    let d := randRandom r
    let a2 : Agent := ⟨cx, cy, d.1 * 2 * PI⟩
    let m2 := deposit m cx cy
    let s := steer cfg cosf sinf a2 m2 d.2
    (s.1, m2, s.2)
  else
    let a2 : Agent := ⟨nx, ny, a.angle⟩
    let m2 := deposit m nx ny
    let s := steer cfg cosf sinf a2 m2 r
    (s.1, m2, s.2)

/-- The agent half of a tick (`for agent in agents: update_agent(agent)`):
agents are processed one at a time in pool order, each one reading and
writing the map state left by the previous one. -/
def agentPass (cfg : Config) (cosf sinf : ℚ → ℚ) :
    List Agent → TrailMap → RNG → List Agent × TrailMap × RNG
  | [], m, r => ([], m, r)
  | a :: rest, m, r =>
    let u := update_agent cfg cosf sinf a m r
    let t := agentPass cfg cosf sinf rest u.2.1 u.2.2
    (u.1 :: t.1, t.2.1, t.2.2)

/-- The full simulation state threaded through the main loop. -/
structure SimState where
  agents : List Agent
  map : TrailMap
  rng : RNG

/-- One iteration of the main loop (lines 163–167): all agents updated in
order, then `DrawMap = diffuse(DrawMap)`, then `evaporate_map(DrawMap)`.
The external Gaussian blur is the parameter `diffuseF`. -/
def stepSim (cfg : Config) (cosf sinf : ℚ → ℚ)
    (diffuseF : TrailMap → TrailMap) (st : SimState) : SimState :=
  let p := agentPass cfg cosf sinf st.agents st.map st.rng
  let m2 := diffuseF p.2.1
  let m3 := evaporate_map cfg m2
  ⟨p.1, m3, p.2.2⟩

/-- Creation of one agent (lines 152–154): three draws, in evaluation
order — x position, y position, angle. -/
def mkAgent (cfg : Config) (r : RNG) : Agent × RNG :=
  let d1 := randRandom r
  let d2 := randRandom d1.2
  let d3 := randRandom d2.2
  (⟨d1.1 * cfg.width, d2.1 * cfg.height, d3.1 * 2 * PI⟩, d3.2)

/-- `[Agent(...) for i in range(nrAgents)]` with `range` semantics: a
non-positive count yields the empty list. -/
def mkAgents (cfg : Config) : ℕ → RNG → List Agent × RNG
  | 0, r => ([], r)
  | n + 1, r =>
    let p := mkAgent cfg r
    let t := mkAgents cfg n p.2
    (p.1 :: t.1, t.2)

/-- Configuration-validation outcome. The source has no validation code;
this type gives the embedding a place to express "initialization fails". -/
inductive ConfigError where
  | invalidConfiguration
deriving DecidableEq

/-- Initialization as the source performs it (lines 152–154), embedded
fallibly so that the presence or absence of a failure path is visible: the
agent list is always built and returned, for every configuration. -/
def agentsInit (cfg : Config) (r : RNG) :
    Except ConfigError (List Agent × RNG) :=
  Except.ok (mkAgents cfg cfg.nrAgents.toNat r)

/-- Modelled from the spec: the initialization-time validation predicate the
specification prescribes (section 7 / 4.1) but the source does not contain —
a configuration is invalid when agent count, width or height is
non-positive, the sensor half-size is negative (impossible for the `ℕ`
field, recorded for completeness), or the evaporation rate, turn speed or
diffusion strength is negative. `diffStrength` stands for the
`diffuseFaktor` parameter of the external blur. -/
def validConfig (cfg : Config) (diffStrength : ℚ) : Bool :=
  0 < cfg.nrAgents ∧ 0 < cfg.width ∧ 0 < cfg.height ∧
    0 ≤ cfg.evaporateSpeed ∧ 0 ≤ cfg.turnSpeed ∧ 0 ≤ diffStrength

/-- A map holding a single cell at value 1 and 0 everywhere else, the
starting grid of the decay-convergence property. -/
def singleCell (ci cj : ℤ) : TrailMap :=
  fun i j => if i = ci ∧ j = cj then 1 else 0

/-- The configuration hardcoded at lines 12–24 of the source
(`height = int(200 * 16 / 9) = 355`). -/
def cfgSource : Config where
  moveSpeed := 10
  deltaTime := 1/10
  width := 200
  height := 355
  nrAgents := 700
  evaporateSpeed := 1/10
  sensorOffsetDst := 5
  sensorSize := 4
  sensorAngleSpacing := 78/100
  turnSpeed := 5/2

/-- The source configuration with the agent count replaced by 0 — invalid
according to the specification's validation rules. -/
def cfgBadCount : Config := { cfgSource with nrAgents := 0 }

/-- A small configuration used to instantiate theorems on concrete data. -/
def cfgEx : Config where
  moveSpeed := 1
  deltaTime := 1
  width := 5
  height := 5
  nrAgents := 1
  evaporateSpeed := 1/10
  sensorOffsetDst := 0
  sensorSize := 0
  sensorAngleSpacing := 1
  turnSpeed := 1

/-- A concrete generator state: the all-zero stream at index 0. -/
def zeroStream : RNG := ⟨fun _ => 0, 0⟩

/-- The all-zero grid. -/
def zeroMap : TrailMap := fun _ _ => 0

/-- A concrete stand-in for the trigonometric primitives. -/
def czero : ℚ → ℚ := fun _ => 0

/-- A concrete agent placed in the interior of the small grid. -/
def agentEx : Agent := ⟨2, 2, 0⟩

/-- The run: `N` iterations of the main loop from an initial state,
recording the state after every tick. -/
def runTrace (cfg : Config) (cosf sinf : ℚ → ℚ)
    (diffuseF : TrailMap → TrailMap) : ℕ → SimState → List SimState
  | 0, _ => []
  | n + 1, st =>
    let st2 := stepSim cfg cosf sinf diffuseF st
    st2 :: runTrace cfg cosf sinf diffuseF n st2

/-- A complete run of the program's simulation part: initialize the agents
from the generator state, then run `n` ticks from the all-zero map. -/
def fullRun (cfg : Config) (cosf sinf : ℚ → ℚ)
    (diffuseF : TrailMap → TrailMap) (n : ℕ) (r : RNG) : List SimState :=
  let p := mkAgents cfg cfg.nrAgents.toNat r
  runTrace cfg cosf sinf diffuseF n ⟨p.1, fun _ _ => 0, p.2⟩

/-! ### Helper lemmas -/

/-- `steer` never changes the agent's position, only its angle. -/
theorem steer_posX (cfg : Config) (cosf sinf : ℚ → ℚ) (a : Agent)
    (m : TrailMap) (r : RNG) :
    (steer cfg cosf sinf a m r).1.posX = a.posX := by
  unfold steer
  dsimp only
  repeat' split
  all_goals rfl

theorem steer_posY (cfg : Config) (cosf sinf : ℚ → ℚ) (a : Agent)
    (m : TrailMap) (r : RNG) :
    (steer cfg cosf sinf a m r).1.posY = a.posY := by
  unfold steer
  dsimp only
  repeat' split
  all_goals rfl

/-- A left fold whose step adds a value per element equals the start value
plus the sum of those values. -/
theorem foldl_eq_add_sum (l : List ℤ) (f : ℚ → ℤ → ℚ) (v : ℤ → ℚ)
    (hf : ∀ acc x, f acc x = acc + v x) (a : ℚ) :
    l.foldl f a = a + (l.map v).sum := by
  induction l generalizing a with
  | nil => simp
  | cons x xs ih => rw [List.foldl_cons, hf, ih]; simp [add_assoc]

/-- Summing a function over `List.range` matches `Finset.range`. -/
theorem range_map_sum (n : ℕ) (g : ℕ → ℚ) :
    ((List.range n).map g).sum = ∑ k in Finset.range n, g k := by
  induction n with
  | zero => simp
  | succ m ih =>
    rw [List.range_succ, Finset.sum_range_succ, List.map_append,
      List.sum_append, ih]
    simp

/-- Summing a function over the offset list `range(-s, s+1)` matches the
integer interval `[-s, s]`. -/
theorem windowOffsets_sum (s : ℕ) (f : ℤ → ℚ) :
    ((windowOffsets s).map f).sum = ∑ x in Finset.Icc (-(s : ℤ)) (s : ℤ), f x := by
  unfold windowOffsets
  rw [List.map_map]
  have h := range_map_sum (2 * s + 1) (fun k => f ((k : ℤ) - (s : ℤ)))
  rw [show (f ∘ fun k : ℕ => (k : ℤ) - (s : ℤ)) =
      (fun k : ℕ => f ((k : ℤ) - (s : ℤ))) from rfl, h]
  exact Finset.sum_nbij' (fun k => (k : ℤ) - (s : ℤ)) (fun x => (x + (s : ℤ)).toNat)
    (by intro a ha; simp at ha ⊢; omega)
    (by intro x hx; simp at hx ⊢; omega)
    (by intro a ha; dsimp only; omega)
    (by intro x hx; simp at hx; dsimp only; omega)
    (by intro a ha; rfl)

/-- The per-step closed form of repeated evaporation on the single-cell
grid: after `k` steps the marked cell holds `max 0 (1 - k * (rate * dt))`. -/
theorem evaporate_iterate (cfg : Config) (ci cj : ℤ)
    (hin : 0 ≤ ci ∧ ci < cfg.width ∧ 0 ≤ cj ∧ cj < cfg.height)
    (hc : 0 < cfg.evaporateSpeed * cfg.deltaTime) (k : ℕ) :
    (evaporate_map cfg)^[k] (singleCell ci cj) ci cj =
      max 0 (1 - (k : ℚ) * (cfg.evaporateSpeed * cfg.deltaTime)) := by
  induction k with
  | zero => norm_num [singleCell]
  | succ n ih =>
    rw [Function.iterate_succ_apply']
    simp only [evaporate_map]
    rw [if_pos hin, ih]
    push_cast
    rcases le_or_lt (1 - (n : ℚ) * (cfg.evaporateSpeed * cfg.deltaTime)) 0 with h | h
    · rw [max_eq_left h, max_eq_left, max_eq_left] <;> nlinarith
    · rw [max_eq_right (le_of_lt h)]
      ring_nf

/-- The length of the created agent list equals the requested count. -/
theorem mkAgents_length (cfg : Config) (n : ℕ) (r : RNG) :
    (mkAgents cfg n r).1.length = n := by
  induction n generalizing r with
  | zero => rfl
  | succ m ih => simp [mkAgents, ih]

/-! ### The claims -/

/-- C3: depositing is an overwrite to the saturating trail value 1, not an
addition: a deposit leaves the cell indexed by the truncated position at
exactly 1, and a second deposit into the same cell (from a possibly
different position truncating to the same indices) leaves it at exactly 1,
never at 2. -/
theorem c3_deposit_saturates (m : TrailMap) (x y x2 y2 : ℚ)
    (hx : pyInt x2 = pyInt x) (hy : pyInt y2 = pyInt y) :
    deposit m x y (pyInt x) (pyInt y) = 1 ∧
    deposit (deposit m x y) x2 y2 (pyInt x) (pyInt y) = 1 := by
  constructor
  · simp [deposit]
  · simp [deposit, hx, hy]

theorem c3_deposit_saturates_witness :
    pyInt (1/2 : ℚ) = pyInt (0 : ℚ) ∧
    (deposit zeroMap 0 0 (pyInt 0) (pyInt 0) = 1 ∧
      deposit (deposit zeroMap 0 0) (1/2) (1/2) (pyInt 0) (pyInt 0) = 1) := by
  have h : pyInt (1/2 : ℚ) = pyInt (0 : ℚ) := by norm_num [pyInt]
  exact ⟨h, c3_deposit_saturates zeroMap 0 0 (1/2) (1/2) h h⟩

/-- C5: evaporation maps every in-range cell value `v` to
`max 0 (v - rate * dt)`, depending only on that cell's own value, and the
result is never negative. -/
theorem c5_evaporate_pointwise (cfg : Config) (m mB : TrailMap) (i j : ℤ)
    (hi : 0 ≤ i) (hiw : i < cfg.width) (hj : 0 ≤ j) (hjh : j < cfg.height)
    (hagree : m i j = mB i j) :
    evaporate_map cfg m i j =
      max 0 (m i j - cfg.evaporateSpeed * cfg.deltaTime) ∧
    0 ≤ evaporate_map cfg m i j ∧
    evaporate_map cfg m i j = evaporate_map cfg mB i j := by
  have hcond : 0 ≤ i ∧ i < cfg.width ∧ 0 ≤ j ∧ j < cfg.height :=
    ⟨hi, hiw, hj, hjh⟩
  have h1 : evaporate_map cfg m i j =
      max 0 (m i j - cfg.evaporateSpeed * cfg.deltaTime) := by
    simp only [evaporate_map]
    rw [if_pos hcond]
  have h2 : evaporate_map cfg mB i j =
      max 0 (mB i j - cfg.evaporateSpeed * cfg.deltaTime) := by
    simp only [evaporate_map]
    rw [if_pos hcond]
  refine ⟨h1, ?_, ?_⟩
  · rw [h1]; exact le_max_left _ _
  · rw [h1, h2, hagree]

theorem c5_evaporate_pointwise_witness :
    (0 : ℤ) ≤ 0 ∧ (0 : ℤ) < cfgEx.width ∧
    ((fun _ _ => (1 : ℚ)) : TrailMap) 0 0 =
      ((fun i _ => if i = 4 then 7 else (1 : ℚ)) : TrailMap) 0 0 ∧
    (evaporate_map cfgEx (fun _ _ => (1 : ℚ)) 0 0 =
        max 0 ((1 : ℚ) - cfgEx.evaporateSpeed * cfgEx.deltaTime) ∧
      0 ≤ evaporate_map cfgEx (fun _ _ => (1 : ℚ)) 0 0 ∧
      evaporate_map cfgEx (fun _ _ => (1 : ℚ)) 0 0 =
        evaporate_map cfgEx (fun i _ => if i = 4 then 7 else (1 : ℚ)) 0 0) := by
  refine ⟨le_refl 0, by decide, by norm_num, ?_⟩
  exact c5_evaporate_pointwise cfgEx (fun _ _ => 1)
    (fun i _ => if i = 4 then 7 else 1) 0 0 (by decide) (by decide)
    (by decide) (by decide) (by norm_num)

/-- C10: every call to `steer` consumes exactly one random draw, in every
branch: the returned generator state is always the input stream advanced by
exactly one position, independently of the sensed values. -/
theorem c10_steer_advances_rng_once (cfg : Config) (cosf sinf : ℚ → ℚ)
    (a : Agent) (m : TrailMap) (r : RNG) :
    (steer cfg cosf sinf a m r).2 = ⟨r.stream, r.idx + 1⟩ := by
  unfold steer randRandom
  dsimp only
  repeat' split
  all_goals rfl

/-- C6: when the three sensed values are all equal (`forward = left =
right`), none of the four comparison branches of `steer` fires and the
agent — its heading in particular — is left exactly unchanged by the
implicit fifth no-op case. -/
theorem c6_steer_tie_noop (cfg : Config) (cosf sinf : ℚ → ℚ) (a : Agent)
    (m : TrailMap) (r : RNG)
    (hL : sense cfg cosf sinf a m cfg.sensorAngleSpacing =
      sense cfg cosf sinf a m 0)
    (hR : sense cfg cosf sinf a m (-cfg.sensorAngleSpacing) =
      sense cfg cosf sinf a m 0) :
    (steer cfg cosf sinf a m r).1 = a := by
  unfold steer
  rw [hL, hR]
  simp [lt_irrefl]

theorem c6_steer_tie_noop_witness :
    (sense cfgEx czero czero agentEx zeroMap cfgEx.sensorAngleSpacing =
        sense cfgEx czero czero agentEx zeroMap 0) ∧
    (sense cfgEx czero czero agentEx zeroMap (-cfgEx.sensorAngleSpacing) =
        sense cfgEx czero czero agentEx zeroMap 0) ∧
    (steer cfgEx czero czero agentEx zeroMap zeroStream).1 = agentEx := by
  have hL : sense cfgEx czero czero agentEx zeroMap cfgEx.sensorAngleSpacing =
      sense cfgEx czero czero agentEx zeroMap 0 := by
    norm_num [sense, cfgEx, czero, agentEx, zeroMap, windowOffsets, npClip,
      pyInt, List.range_succ]
  have hR : sense cfgEx czero czero agentEx zeroMap (-cfgEx.sensorAngleSpacing) =
      sense cfgEx czero czero agentEx zeroMap 0 := by
    norm_num [sense, cfgEx, czero, agentEx, zeroMap, windowOffsets, npClip,
      pyInt, List.range_succ]
  exact ⟨hL, hR, c6_steer_tie_noop cfgEx czero czero agentEx zeroMap
    zeroStream hL hR⟩

/-- C2: the whole pipeline is a deterministic function of the random stream
and the configuration: two runs of `n` steps from equal generator states
(same seed) produce identical traces — agent lists (positions and headings)
and trail-map snapshots alike. -/
theorem c2_run_deterministic (cfg : Config) (cosf sinf : ℚ → ℚ)
    (diffuseF : TrailMap → TrailMap) (n : ℕ) (r1 r2 : RNG) (h : r1 = r2) :
    fullRun cfg cosf sinf diffuseF n r1 = fullRun cfg cosf sinf diffuseF n r2 := by
  rw [h]

theorem c2_run_deterministic_witness :
    fullRun cfgEx czero czero id 2 zeroStream =
      fullRun cfgEx czero czero id 2 zeroStream :=
  c2_run_deterministic cfgEx czero czero id 2 zeroStream zeroStream rfl

/-- C4: the per-tick execution order is fixed: the blur runs on the map
left by the full agent pass and evaporation runs on the blurred map; the
agent pass handles the agents one at a time in list order, each agent's
update reading the map and generator state left by the previous one; and a
single agent update changes the map exactly by one deposit. -/
theorem c4_tick_order (cfg : Config) (cosf sinf : ℚ → ℚ)
    (diffuseF : TrailMap → TrailMap) (st : SimState)
    (a : Agent) (rest : List Agent) (m : TrailMap) (r : RNG) :
    (stepSim cfg cosf sinf diffuseF st).map =
      evaporate_map cfg
        (diffuseF (agentPass cfg cosf sinf st.agents st.map st.rng).2.1) ∧
    (stepSim cfg cosf sinf diffuseF st).agents =
      (agentPass cfg cosf sinf st.agents st.map st.rng).1 ∧
    (stepSim cfg cosf sinf diffuseF st).rng =
      (agentPass cfg cosf sinf st.agents st.map st.rng).2.2 ∧
    agentPass cfg cosf sinf [] m r = ([], m, r) ∧
    agentPass cfg cosf sinf (a :: rest) m r =
      ((update_agent cfg cosf sinf a m r).1 ::
          (agentPass cfg cosf sinf rest (update_agent cfg cosf sinf a m r).2.1
            (update_agent cfg cosf sinf a m r).2.2).1,
        (agentPass cfg cosf sinf rest (update_agent cfg cosf sinf a m r).2.1
          (update_agent cfg cosf sinf a m r).2.2).2) ∧
    (∃ px py, (update_agent cfg cosf sinf a m r).2.1 = deposit m px py) := by
  refine ⟨rfl, rfl, rfl, rfl, rfl, ?_⟩
  unfold update_agent
  dsimp only
  split
  · exact ⟨_, _, rfl⟩
  · exact ⟨_, _, rfl⟩

/-- C1: after every `update_agent` call the agent's position satisfies
`0 ≤ x < width` and `0 ≤ y < height`; when the tentative position leaves
the grid on either axis the position is constrained (to `width - 0.01`,
resp. `height - 0.01`, above and `0` below), otherwise it is accepted
unchanged. -/
theorem c1_bounds_invariant (cfg : Config) (cosf sinf : ℚ → ℚ) (a : Agent)
    (m : TrailMap) (r : RNG) (hw : 0 < cfg.width) (hh : 0 < cfg.height) :
    (0 ≤ (update_agent cfg cosf sinf a m r).1.posX ∧
      (update_agent cfg cosf sinf a m r).1.posX < (cfg.width : ℚ) ∧
      0 ≤ (update_agent cfg cosf sinf a m r).1.posY ∧
      (update_agent cfg cosf sinf a m r).1.posY < (cfg.height : ℚ)) ∧
    (¬ (a.posX + cosf a.angle * cfg.moveSpeed * cfg.deltaTime < 0 ∨
          a.posX + cosf a.angle * cfg.moveSpeed * cfg.deltaTime ≥ (cfg.width : ℚ) ∨
          a.posY + sinf a.angle * cfg.moveSpeed * cfg.deltaTime < 0 ∨
          a.posY + sinf a.angle * cfg.moveSpeed * cfg.deltaTime ≥ (cfg.height : ℚ)) →
      (update_agent cfg cosf sinf a m r).1.posX =
          a.posX + cosf a.angle * cfg.moveSpeed * cfg.deltaTime ∧
        (update_agent cfg cosf sinf a m r).1.posY =
          a.posY + sinf a.angle * cfg.moveSpeed * cfg.deltaTime) ∧
    ((a.posX + cosf a.angle * cfg.moveSpeed * cfg.deltaTime < 0 ∨
          a.posX + cosf a.angle * cfg.moveSpeed * cfg.deltaTime ≥ (cfg.width : ℚ) ∨
          a.posY + sinf a.angle * cfg.moveSpeed * cfg.deltaTime < 0 ∨
          a.posY + sinf a.angle * cfg.moveSpeed * cfg.deltaTime ≥ (cfg.height : ℚ)) →
      (update_agent cfg cosf sinf a m r).1.posX =
          min ((cfg.width : ℚ) - 1/100)
            (max 0 (a.posX + cosf a.angle * cfg.moveSpeed * cfg.deltaTime)) ∧
        (update_agent cfg cosf sinf a m r).1.posY =
          min ((cfg.height : ℚ) - 1/100)
            (max 0 (a.posY + sinf a.angle * cfg.moveSpeed * cfg.deltaTime))) := by
  have h1w : (1 : ℚ) ≤ (cfg.width : ℚ) := by exact_mod_cast hw
  have h1h : (1 : ℚ) ≤ (cfg.height : ℚ) := by exact_mod_cast hh
  by_cases h : a.posX + cosf a.angle * cfg.moveSpeed * cfg.deltaTime < 0 ∨
      a.posX + cosf a.angle * cfg.moveSpeed * cfg.deltaTime ≥ (cfg.width : ℚ) ∨
      a.posY + sinf a.angle * cfg.moveSpeed * cfg.deltaTime < 0 ∨
      a.posY + sinf a.angle * cfg.moveSpeed * cfg.deltaTime ≥ (cfg.height : ℚ)
  · have hx : (update_agent cfg cosf sinf a m r).1.posX =
        min ((cfg.width : ℚ) - 1/100)
          (max 0 (a.posX + cosf a.angle * cfg.moveSpeed * cfg.deltaTime)) := by
      unfold update_agent
      dsimp only
      rw [if_pos h, steer_posX]
    have hy : (update_agent cfg cosf sinf a m r).1.posY =
        min ((cfg.height : ℚ) - 1/100)
          (max 0 (a.posY + sinf a.angle * cfg.moveSpeed * cfg.deltaTime)) := by
      unfold update_agent
      dsimp only
      rw [if_pos h, steer_posY]
    refine ⟨⟨?_, ?_, ?_, ?_⟩, fun hin => absurd h hin, fun _ => ⟨hx, hy⟩⟩
    · rw [hx]
      exact le_min (by linarith) (le_max_left _ _)
    · rw [hx]
      exact lt_of_le_of_lt (min_le_left _ _) (by linarith)
    · rw [hy]
      exact le_min (by linarith) (le_max_left _ _)
    · rw [hy]
      exact lt_of_le_of_lt (min_le_left _ _) (by linarith)
  · have hx : (update_agent cfg cosf sinf a m r).1.posX =
        a.posX + cosf a.angle * cfg.moveSpeed * cfg.deltaTime := by
      unfold update_agent
      dsimp only
      rw [if_neg h, steer_posX]
    have hy : (update_agent cfg cosf sinf a m r).1.posY =
        a.posY + sinf a.angle * cfg.moveSpeed * cfg.deltaTime := by
      unfold update_agent
      dsimp only
      rw [if_neg h, steer_posY]
    have hb := h
    push_neg at hb
    refine ⟨⟨?_, ?_, ?_, ?_⟩, fun _ => ⟨hx, hy⟩, fun hcond => absurd hcond h⟩
    · rw [hx]; exact hb.1
    · rw [hx]; exact hb.2.1
    · rw [hy]; exact hb.2.2.1
    · rw [hy]; exact hb.2.2.2

theorem c1_bounds_invariant_witness :
    (0 : ℤ) < cfgEx.width ∧ (0 : ℤ) < cfgEx.height ∧
    ((0 ≤ (update_agent cfgEx czero czero agentEx zeroMap zeroStream).1.posX ∧
        (update_agent cfgEx czero czero agentEx zeroMap zeroStream).1.posX <
          (cfgEx.width : ℚ) ∧
        0 ≤ (update_agent cfgEx czero czero agentEx zeroMap zeroStream).1.posY ∧
        (update_agent cfgEx czero czero agentEx zeroMap zeroStream).1.posY <
          (cfgEx.height : ℚ)) ∧
      (¬ (agentEx.posX + czero agentEx.angle * cfgEx.moveSpeed * cfgEx.deltaTime < 0 ∨
            agentEx.posX + czero agentEx.angle * cfgEx.moveSpeed * cfgEx.deltaTime ≥
              (cfgEx.width : ℚ) ∨
            agentEx.posY + czero agentEx.angle * cfgEx.moveSpeed * cfgEx.deltaTime < 0 ∨
            agentEx.posY + czero agentEx.angle * cfgEx.moveSpeed * cfgEx.deltaTime ≥
              (cfgEx.height : ℚ)) →
        (update_agent cfgEx czero czero agentEx zeroMap zeroStream).1.posX =
            agentEx.posX + czero agentEx.angle * cfgEx.moveSpeed * cfgEx.deltaTime ∧
          (update_agent cfgEx czero czero agentEx zeroMap zeroStream).1.posY =
            agentEx.posY + czero agentEx.angle * cfgEx.moveSpeed * cfgEx.deltaTime) ∧
      ((agentEx.posX + czero agentEx.angle * cfgEx.moveSpeed * cfgEx.deltaTime < 0 ∨
            agentEx.posX + czero agentEx.angle * cfgEx.moveSpeed * cfgEx.deltaTime ≥
              (cfgEx.width : ℚ) ∨
            agentEx.posY + czero agentEx.angle * cfgEx.moveSpeed * cfgEx.deltaTime < 0 ∨
            agentEx.posY + czero agentEx.angle * cfgEx.moveSpeed * cfgEx.deltaTime ≥
              (cfgEx.height : ℚ)) →
        (update_agent cfgEx czero czero agentEx zeroMap zeroStream).1.posX =
            min ((cfgEx.width : ℚ) - 1/100)
              (max 0 (agentEx.posX +
                czero agentEx.angle * cfgEx.moveSpeed * cfgEx.deltaTime)) ∧
          (update_agent cfgEx czero czero agentEx zeroMap zeroStream).1.posY =
            min ((cfgEx.height : ℚ) - 1/100)
              (max 0 (agentEx.posY +
                czero agentEx.angle * cfgEx.moveSpeed * cfgEx.deltaTime)))) :=
  ⟨by decide, by decide,
    c1_bounds_invariant cfgEx czero czero agentEx zeroMap zeroStream
      (by decide) (by decide)⟩

/-- C7: `sense` returns the unweighted sum of map values over the square
window of half-size `sensorSize` centered on the clamped, truncated sensor
center, with out-of-grid window cells skipped (contributing `0`). -/
theorem c7_sense_window_sum (cfg : Config) (cosf sinf : ℚ → ℚ) (a : Agent)
    (m : TrailMap) (off : ℚ) :
    sense cfg cosf sinf a m off =
      ∑ ox in Finset.Icc (-(cfg.sensorSize : ℤ)) (cfg.sensorSize : ℤ),
        ∑ oy in Finset.Icc (-(cfg.sensorSize : ℤ)) (cfg.sensorSize : ℤ),
          if 0 ≤ pyInt (npClip (a.posX + cosf (a.angle + off) * cfg.sensorOffsetDst)
                  0 ((cfg.width : ℚ) - 1)) + ox ∧
              pyInt (npClip (a.posX + cosf (a.angle + off) * cfg.sensorOffsetDst)
                  0 ((cfg.width : ℚ) - 1)) + ox < cfg.width ∧
              0 ≤ pyInt (npClip (a.posY + sinf (a.angle + off) * cfg.sensorOffsetDst)
                  0 ((cfg.height : ℚ) - 1)) + oy ∧
              pyInt (npClip (a.posY + sinf (a.angle + off) * cfg.sensorOffsetDst)
                  0 ((cfg.height : ℚ) - 1)) + oy < cfg.height then
            m (pyInt (npClip (a.posX + cosf (a.angle + off) * cfg.sensorOffsetDst)
                0 ((cfg.width : ℚ) - 1)) + ox)
              (pyInt (npClip (a.posY + sinf (a.angle + off) * cfg.sensorOffsetDst)
                0 ((cfg.height : ℚ) - 1)) + oy)
          else 0 := by
  unfold sense
  dsimp only
  set ix := pyInt (npClip (a.posX + cosf (a.angle + off) * cfg.sensorOffsetDst)
    0 ((cfg.width : ℚ) - 1)) with hix
  set iy := pyInt (npClip (a.posY + sinf (a.angle + off) * cfg.sensorOffsetDst)
    0 ((cfg.height : ℚ) - 1)) with hiy
  have hinner : ∀ (tot : ℚ) (offX : ℤ),
      (windowOffsets cfg.sensorSize).foldl
        (fun tot2 offY =>
          if 0 ≤ ix + offX ∧ ix + offX < cfg.width ∧ 0 ≤ iy + offY ∧
              iy + offY < cfg.height then
            tot2 + m (ix + offX) (iy + offY)
          else tot2) tot =
        tot + ∑ oy in Finset.Icc (-(cfg.sensorSize : ℤ)) (cfg.sensorSize : ℤ),
          (if 0 ≤ ix + offX ∧ ix + offX < cfg.width ∧ 0 ≤ iy + oy ∧
              iy + oy < cfg.height then
            m (ix + offX) (iy + oy)
          else 0) := by
    intro tot offX
    rw [foldl_eq_add_sum _ _
      (fun offY => if 0 ≤ ix + offX ∧ ix + offX < cfg.width ∧ 0 ≤ iy + offY ∧
          iy + offY < cfg.height then m (ix + offX) (iy + offY) else 0)
      (by
        intro acc x
        dsimp only
        by_cases hP : 0 ≤ ix + offX ∧ ix + offX < cfg.width ∧ 0 ≤ iy + x ∧
          iy + x < cfg.height
        · rw [if_pos hP, if_pos hP]
        · rw [if_neg hP, if_neg hP, add_zero]), windowOffsets_sum]
  rw [foldl_eq_add_sum _ _
    (fun offX => ∑ oy in Finset.Icc (-(cfg.sensorSize : ℤ)) (cfg.sensorSize : ℤ),
      (if 0 ≤ ix + offX ∧ ix + offX < cfg.width ∧ 0 ≤ iy + oy ∧
          iy + oy < cfg.height then
        m (ix + offX) (iy + oy)
      else 0))
    (by intro acc x; exact hinner acc x), windowOffsets_sum, zero_add]

/-- C8: with no agents and no diffusion, starting from a single cell at
value 1, repeated evaporation at rate `e` and step `dt` drives that cell to
exactly 0 after `⌈1 / (e * dt)⌉` steps, and the cell value is never
negative at any step. -/
theorem c8_decay_convergence (cfg : Config) (ci cj : ℤ)
    (hin : 0 ≤ ci ∧ ci < cfg.width ∧ 0 ≤ cj ∧ cj < cfg.height)
    (hc : 0 < cfg.evaporateSpeed * cfg.deltaTime) :
    (evaporate_map cfg)^[(⌈1 / (cfg.evaporateSpeed * cfg.deltaTime)⌉).toNat]
        (singleCell ci cj) ci cj = 0 ∧
    ∀ k : ℕ, 0 ≤ (evaporate_map cfg)^[k] (singleCell ci cj) ci cj := by
  constructor
  · rw [evaporate_iterate cfg ci cj hin hc]
    apply max_eq_left
    have hpos : 0 < 1 / (cfg.evaporateSpeed * cfg.deltaTime) := by positivity
    have hceil : (0 : ℤ) ≤ ⌈1 / (cfg.evaporateSpeed * cfg.deltaTime)⌉ :=
      le_of_lt (Int.ceil_pos.mpr hpos)
    have hcast :
        ((⌈1 / (cfg.evaporateSpeed * cfg.deltaTime)⌉.toNat : ℕ) : ℚ) =
          ((⌈1 / (cfg.evaporateSpeed * cfg.deltaTime)⌉ : ℤ) : ℚ) := by
      exact_mod_cast congrArg (fun z : ℤ => (z : ℚ))
        (Int.toNat_of_nonneg hceil)
    have hle : 1 / (cfg.evaporateSpeed * cfg.deltaTime) ≤
        ((⌈1 / (cfg.evaporateSpeed * cfg.deltaTime)⌉ : ℤ) : ℚ) :=
      Int.le_ceil _
    rw [hcast]
    have hmul : 1 ≤ ((⌈1 / (cfg.evaporateSpeed * cfg.deltaTime)⌉ : ℤ) : ℚ) *
        (cfg.evaporateSpeed * cfg.deltaTime) := by
      have h2 := mul_le_mul_of_nonneg_right hle (le_of_lt hc)
      rwa [one_div_mul_cancel (ne_of_gt hc)] at h2
    linarith
  · intro k
    rw [evaporate_iterate cfg ci cj hin hc k]
    exact le_max_left _ _

theorem c8_decay_convergence_witness :
    ((0 : ℤ) ≤ 0 ∧ (0 : ℤ) < cfgEx.width ∧ (0 : ℤ) ≤ 0 ∧ (0 : ℤ) < cfgEx.height) ∧
    0 < cfgEx.evaporateSpeed * cfgEx.deltaTime ∧
    (evaporate_map cfgEx)^[(⌈1 / (cfgEx.evaporateSpeed * cfgEx.deltaTime)⌉).toNat]
        (singleCell 0 0) 0 0 = 0 ∧
    0 ≤ (evaporate_map cfgEx)^[3] (singleCell 0 0) 0 0 := by
  have hin : (0 : ℤ) ≤ 0 ∧ (0 : ℤ) < cfgEx.width ∧ (0 : ℤ) ≤ 0 ∧
      (0 : ℤ) < cfgEx.height := by
    refine ⟨le_refl 0, ?_, le_refl 0, ?_⟩ <;> decide
  have hc : 0 < cfgEx.evaporateSpeed * cfgEx.deltaTime := by
    norm_num [cfgEx]
  exact ⟨hin, hc, (c8_decay_convergence cfgEx 0 0 hin hc).1,
    (c8_decay_convergence cfgEx 0 0 hin hc).2 3⟩

/-- C9, counterexample: the claim says initialization fails with
`InvalidConfiguration` when the configuration is invalid, but the source
performs no validation at all: with the agent count set to 0 — invalid by
the specification's own criterion — initialization succeeds normally and
returns an empty agent pool. -/
theorem c9_counterexample :
    validConfig cfgBadCount (4/10) = false ∧
    agentsInit cfgBadCount zeroStream = Except.ok ([], zeroStream) := by
  constructor
  · norm_num [validConfig, cfgBadCount, cfgSource]
  · rfl

/-- C9, amended: initialization never fails, for any configuration (valid
or not): it always returns a pool of `max 0 count` agents; in particular
the hardcoded configuration of the source is valid and initialization
succeeds on it, and the running simulation has no failure path. -/
theorem c9_init_never_fails (cfg : Config) (r : RNG) :
    agentsInit cfg r = Except.ok (mkAgents cfg cfg.nrAgents.toNat r) ∧
    (mkAgents cfg cfg.nrAgents.toNat r).1.length = cfg.nrAgents.toNat ∧
    validConfig cfgSource (4/10) = true := by
  refine ⟨rfl, mkAgents_length cfg cfg.nrAgents.toNat r, ?_⟩
  norm_num [validConfig, cfgSource]

end Slime
